import Mathlib

/-!
Verification of the BCAI federated training coordinator specification
against `examples/python_sdk_demo.py`.

Python dictionaries with string keys are embedded as association lists;
numeric tensor entries are embedded as rational scalars (`ℚ`), so the
averaging arithmetic is exact.  Fallible Python code (dictionary access
that can raise `KeyError`, indexing that can raise `IndexError`) is
embedded through `Option`.  Components of the specification that have no
implementation in the source (the weighted aggregation engine with its
quorum check, the job compiler's allow-list, the ledger and the round
scheduler) are modelled from the spec and carry a doc comment saying so.
-/

set_option autoImplicit false

/-- A Python dict mapping parameter names to tensor values, embedded as an
association list from `String` to a rational scalar. -/
abbrev ParamDict := List (String × ℚ)

/-- Python dictionary access `d[k]` on a `ParamDict`: `none` models a raised
`KeyError`. -/
def dlookup : ParamDict → String → Option ℚ
  | [], _ => none
  | (k', v) :: rest, k => if k = k' then some v else dlookup rest k

/-- Keys of a `ParamDict`, in insertion order (Python `d.keys()`). -/
def keysOf (d : ParamDict) : List String := d.map Prod.fst

/-- Effectful traversal over `Option`: building a list where every element
computation may fail (a Python comprehension in which any step may raise). -/
def mapOpt {α β : Type} (f : α → Option β) : List α → Option (List β)
  | [] => some []
  | a :: as =>
    match f a, mapOpt f as with
    | some b, some bs => some (b :: bs)
    | _, _ => none

/-- Python dict `.get(k, dflt)` on a string-to-nat dict (used for
`resources.get("memory_mb", 2048)` and `config.get("epochs", 10)`). -/
def natGet : List (String × Nat) → String → Nat → Nat
  | [], _, dflt => dflt
  | (k', v) :: rest, k, dflt => if k = k' then v else natGet rest k dflt

/-- `TrainingJob` from `python_sdk_demo.py` (lines 63–84). -/
structure TrainingJob where
  name : String
  code : String
  data_source : String
  requirements : List String
  resources : List (String × Nat)
  reward_tokens : Int
  config : List (String × Nat)
deriving DecidableEq

/-- The `constraints` sub-dict built by `TrainingJob.to_vm_instructions`
(lines 94–98). -/
structure ResourceConstraints where
  max_memory_mb : Nat
  max_execution_time_ms : Nat
  allowed_imports : List String
deriving DecidableEq

/-- One VM instruction dict as built by `to_vm_instructions` (lines 88–100). -/
structure VmInstruction where
  type : String
  code : String
  input_tensors : List (String × Nat)
  output_tensors : List (String × Nat)
  constraints : ResourceConstraints
deriving DecidableEq

/-- `TrainingJob.to_vm_instructions` (lines 86–100): a single
`PythonExecute` instruction whose constraints are built from the job's
resources and requirements. -/
def to_vm_instructions (job : TrainingJob) : List VmInstruction :=
  [{ type := "PythonExecute"
     code := job.code
     input_tensors := [("data", 1)]
     output_tensors := [("model", 2)]
     constraints :=
       { max_memory_mb := natGet job.resources "memory_mb" 2048
         max_execution_time_ms := 300000
         allowed_imports := job.requirements } }]

/-- The `training_metrics` dict built inside `submit_job` (lines 38–43). -/
structure TrainingMetrics where
  final_loss : ℚ
  accuracy : ℚ
  epochs : Nat
  execution_time_ms : Nat
deriving DecidableEq

/-- `JobResult` from `python_sdk_demo.py` (lines 102–121). -/
structure JobResult where
  job_id : String
  success : Bool
  model_hash : Option String
  training_metrics : TrainingMetrics
  gas_used : Nat
  reward_earned : Int
  error_message : Option String
deriving DecidableEq

/-- The job id string `f"job_{hash(job.name)}"` built in `submit_job`
(line 35).  Python's `hash` is an arbitrary deterministic function of the
name, so it is taken as a parameter. -/
def job_id (pyHash : String → Int) (name : String) : String :=
  "job_" ++ toString (pyHash name)

/-- `BCaiClient.submit_job` (lines 24–46): the returned `JobResult`.
The call to `to_vm_instructions` and the simulated execution only print;
the returned record is built from the literals at lines 34–46. -/
def submit_job (pyHash : String → Int) (job : TrainingJob) : JobResult :=
  { job_id := job_id pyHash job.name
    success := true
    model_hash := some "abc123def456"
    training_metrics :=
      { final_loss := 15 / 100
        accuracy := 92 / 100
        epochs := natGet job.config "epochs" 10
        execution_time_ms := 5000 }
    gas_used := 1000
    reward_earned := job.reward_tokens
    error_message := none }

/-- `federated_averaging` (lines 308–324 of the embedded federated-learning
code): takes the parameter names from the first client and, for every
parameter, averages the clients' values (`torch.mean` of the stacked
values = sum divided by the number of clients).  `none` models the
`IndexError` on an empty client list or a `KeyError` on a client missing a
parameter. -/
def federated_averaging (client_weights : List ParamDict) : Option ParamDict :=
  match client_weights with
  | [] => none
  | c0 :: _ =>
    mapOpt (fun param_name =>
      match mapOpt (fun c => dlookup c param_name) client_weights with
      | some vals => some (param_name, vals.sum / (client_weights.length : ℚ))
      | none => none)
      (keysOf c0)

/-- Status of one worker's local training for one round (spec §3). -/
inductive UpdateStatus where
  | ok
  | timeout
  | failed (reason : String)
deriving DecidableEq

/-- Modelled from the spec: `WorkerUpdate` (spec §3) — worker id, parameter
mapping, sample-count weight and status.  The source file has no worker
record; only its averaging code exists. -/
structure WorkerUpdate where
  worker_id : String
  params : ParamDict
  weight : Nat
  status : UpdateStatus
deriving DecidableEq

/-- Errors of the aggregation engine (spec §4.3). -/
inductive AggregationError where
  | quorum_not_met
  | key_mismatch
deriving DecidableEq

/-- The `ok`-status updates of a round (spec §3 invariant: only `ok`
updates are consumed by averaging). -/
def okUpdates (updates : List WorkerUpdate) : List WorkerUpdate :=
  updates.filter fun u => decide (u.status = UpdateStatus.ok)

/-- Key-set equality of two parameter dicts (spec §4.3: an update's
parameter-key set must match the current state's). -/
def keySetMatch (d e : ParamDict) : Bool :=
  (keysOf d).all (fun k => decide (k ∈ keysOf e)) &&
    (keysOf e).all (fun k => decide (k ∈ keysOf d))

/-- Modelled from the spec: the weighted mean of one parameter across a
list of updates, `Σ(weight_i * update_i[k]) / Σ(weight_i)` (spec §4.3). -/
def weightedAt (updates : List WorkerUpdate) (k : String) : Option ℚ :=
  match mapOpt (fun u => (dlookup u.params k).map fun v => (u.weight : ℚ) * v) updates with
  | some terms =>
      some (terms.sum / (updates.map fun u => (u.weight : ℚ)).sum)
  | none => none

/-- Modelled from the spec: the Aggregation Engine `aggregate` (spec §4.3)
— fails with `AggregationError` when fewer than `min_workers` updates have
status `ok` or when an `ok` update's key set does not match `current`'s;
otherwise produces the weighted federated average over the `ok` updates.
Absent from the source, which only contains the unweighted
`federated_averaging` demo code. -/
def aggregate (min_workers : Nat) (updates : List WorkerUpdate)
    (current : ParamDict) : Except AggregationError ParamDict :=
  let oks := okUpdates updates
  if oks.length < min_workers then
    Except.error AggregationError.quorum_not_met
  else if oks.all fun u => keySetMatch u.params current then
    match mapOpt (fun k => (weightedAt oks k).map fun v => (k, v)) (keysOf current) with
    | some d => Except.ok d
    | none => Except.error AggregationError.key_mismatch
  else
    Except.error AggregationError.key_mismatch

/-- Value of a parameter dict at a key, defaulting to `0` (only used to
state theorems about keys known to be present). -/
def valueAt (d : ParamDict) (k : String) : ℚ := (dlookup d k).getD 0

/-- `Σ weight_i * update_i[k]` over a list of updates. -/
def weightedSumAt (updates : List WorkerUpdate) (k : String) : ℚ :=
  (updates.map fun u => (u.weight : ℚ) * valueAt u.params k).sum

/-- `Σ weight_i` over a list of updates. -/
def totalWeight (updates : List WorkerUpdate) : ℚ :=
  (updates.map fun u => (u.weight : ℚ)).sum

/-- Errors of the job compiler (spec §4.1). -/
inductive CompileError where
  | disallowed_import (name : String)
  | resource_ceiling_exceeded
  | invalid_source
deriving DecidableEq

/-- Modelled from the spec: configuration of the Job Compiler (spec §4.1:
the allow-list of imports, the resource ceiling, the source-size limit).
Absent from the source. -/
structure CompilerConfig where
  allow_list : List String
  memory_ceiling_mb : Nat
  max_source_bytes : Nat
deriving DecidableEq

/-- Modelled from the spec: the Job Compiler `compile` (spec §4.1) — fails
with `CompileError` when a required import is not on the allow-list, when
the declared memory exceeds the configured ceiling, or when the source
fails structural validation (non-empty, below the size limit); otherwise
produces the instruction list of `to_vm_instructions` and the constraints
record built from the job's declared resources and requirements.  Only the
instruction construction exists in the source. -/
def compile (cfg : CompilerConfig) (job : TrainingJob) :
    Except CompileError (List VmInstruction × ResourceConstraints) :=
  match job.requirements.find? fun r => decide (r ∉ cfg.allow_list) with
  | some imp => Except.error (CompileError.disallowed_import imp)
  | none =>
    if cfg.memory_ceiling_mb < natGet job.resources "memory_mb" 2048 then
      Except.error CompileError.resource_ceiling_exceeded
    else if job.code.length = 0 ∨ cfg.max_source_bytes < job.code.length then
      Except.error CompileError.invalid_source
    else
      Except.ok (to_vm_instructions job,
        { max_memory_mb := natGet job.resources "memory_mb" 2048
          max_execution_time_ms := 300000
          allowed_imports := job.requirements })

/-- One request issued on the Execution Sandbox Interface (spec §6):
`(worker_id, InstructionList, ResourceConstraints, GlobalModelState)`. -/
structure SandboxCall where
  worker_id : String
  instructions : List VmInstruction
  constraints : ResourceConstraints
  input_state : ParamDict
deriving DecidableEq

/-- Terminal record of a scheduled job run (spec §3 `JobResult`, reduced to
the fields the claims mention: success flag, final state, failure reason). -/
structure SchedResult where
  success : Bool
  final_state : ParamDict
  failure_reason : Option String
deriving DecidableEq

/-- Modelled from the spec: the round loop of the Round Scheduler
(spec §4.5) — per round, issue one sandbox call per worker carrying the
compiled instructions and constraints and the current global state,
collect the workers' updates, aggregate them, and either advance to the
next round or terminate with `quorum_not_met`.  Returns the list of
sandbox calls issued together with the terminal result.  Absent from the
source. -/
def runRounds (instrs : List VmInstruction) (constraints : ResourceConstraints)
    (sandbox : Nat → String → ParamDict → WorkerUpdate)
    (workers : List String) (min_workers : Nat) :
    Nat → Nat → ParamDict → List SandboxCall × SchedResult
  | 0, _, state => ([], { success := true, final_state := state, failure_reason := none })
  | remaining + 1, idx, state =>
    let calls := workers.map fun w => SandboxCall.mk w instrs constraints state
    let updates := workers.map fun w => sandbox idx w state
    match aggregate min_workers updates state with
    | Except.error _ =>
        (calls, { success := false, final_state := state
                  failure_reason := some "quorum_not_met" })
    | Except.ok next =>
        let rest := runRounds instrs constraints sandbox workers min_workers
          remaining (idx + 1) next
        (calls ++ rest.1, rest.2)

/-- Modelled from the spec: the Round Scheduler lifecycle (spec §4.5) —
compile once; on `CompileError` terminate immediately with reason
`compile_error` and issue no sandbox calls; otherwise run the configured
number of rounds.  Absent from the source. -/
def runJob (cfg : CompilerConfig) (sandbox : Nat → String → ParamDict → WorkerUpdate)
    (workers : List String) (min_workers rounds : Nat) (job : TrainingJob)
    (init : ParamDict) : List SandboxCall × SchedResult :=
  match compile cfg job with
  | Except.error _ =>
      ([], { success := false, final_state := init
             failure_reason := some "compile_error" })
  | Except.ok (instrs, constraints) =>
      runRounds instrs constraints sandbox workers min_workers rounds 0 init

/-- Modelled from the spec: the ledger state (spec §4.4) — the list of
`(job_id, round_index, resource_consumed)` entries charged so far. -/
structure Ledger where
  entries : List (String × Nat × ℚ)
deriving DecidableEq

/-- Whether a `(job_id, round_index)` pair has already been charged. -/
def Ledger.isCharged (l : Ledger) (job : String) (idx : Nat) : Bool :=
  l.entries.any fun e => decide (e.1 = job) && decide (e.2.1 = idx)

/-- Modelled from the spec: `Ledger.charge` (spec §4.4) — records the
round's resource consumption, idempotent per `(job_id, round_index)`:
re-charging an already-charged round index is a no-op.  Absent from the
source. -/
def Ledger.charge (l : Ledger) (job : String) (idx : Nat) (consumed : ℚ) : Ledger :=
  if l.isCharged job idx then l else { entries := (job, idx, consumed) :: l.entries }

/-- `completion_fraction` (spec §4.4): rounds completed successfully
divided by rounds configured. -/
def completion_fraction (completed configured : Nat) : ℚ :=
  (completed : ℚ) / (configured : ℚ)

/-- Modelled from the spec: `resource_penalty` (spec §4.4) — proportional
to the resource consumed beyond the declared envelope, zero when within
the envelope.  Absent from the source. -/
def resource_penalty (rate consumed envelope : ℚ) : ℚ :=
  if consumed ≤ envelope then 0 else rate * (consumed - envelope)

/-- Modelled from the spec: `Ledger.settle` (spec §4.4) — the reward
`base_reward * completion_fraction - resource_penalty`, floored at zero so
a negative reward is never returned.  Absent from the source. -/
def settle (base_reward : ℚ) (completed configured : Nat)
    (rate consumed envelope : ℚ) : ℚ :=
  let raw := base_reward * completion_fraction completed configured -
    resource_penalty rate consumed envelope
  if raw < 0 then 0 else raw

/-! ### Helper lemmas -/

theorem mapOpt_eq_some_map {α β : Type} (f : α → Option β) (g : α → β) :
    ∀ l : List α, (∀ a ∈ l, f a = some (g a)) → mapOpt f l = some (l.map g)
  | [], _ => rfl
  | a :: as, h => by
    have ha := h a (List.mem_cons_self a as)
    have has := mapOpt_eq_some_map f g as fun x hx => h x (List.mem_cons_of_mem a hx)
    simp [mapOpt, ha, has]

theorem dlookup_isSome : ∀ (d : ParamDict) (k : String), k ∈ keysOf d →
    (dlookup d k).isSome
  | [], k, h => by simp [keysOf] at h
  | (k', v) :: rest, k, h => by
    by_cases hk : k = k'
    · simp [dlookup, hk]
    · have hmem : k ∈ keysOf rest := by
        rcases (by simpa [keysOf] using h : k = k' ∨ k ∈ keysOf rest) with h1 | h1
        · exact absurd h1 hk
        · exact h1
      simpa [dlookup, hk] using dlookup_isSome rest k hmem

theorem dlookup_of_mem_keys (d : ParamDict) (k : String) (h : k ∈ keysOf d) :
    dlookup d k = some (valueAt d k) := by
  obtain ⟨v, hv⟩ := Option.isSome_iff_exists.mp (dlookup_isSome d k h)
  rw [hv]
  simp [valueAt, hv]

theorem dlookup_map_keys (f : String → ℚ) :
    ∀ (ks : List String) (k : String), ks.Nodup → k ∈ ks →
      dlookup (ks.map fun k => (k, f k)) k = some (f k)
  | [], k, _, hk => by simp at hk
  | k' :: ks, k, hnd, hk => by
    by_cases h : k = k'
    · simp [dlookup, h]
    · have hmem : k ∈ ks := by
        rcases List.mem_cons.mp hk with h1 | h1
        · exact absurd h1 h
        · exact h1
      simp [dlookup, h, dlookup_map_keys f ks k (List.nodup_cons.mp hnd).2 hmem]

theorem map_keys_valueAt : ∀ d : ParamDict, (keysOf d).Nodup →
    ((keysOf d).map fun k => (k, valueAt d k)) = d
  | [], _ => by simp [keysOf]
  | (k', v) :: rest, hnd => by
    have hnd' : (keysOf rest).Nodup :=
      (List.nodup_cons.mp (by simpa [keysOf] using hnd)).2
    have hk' : k' ∉ keysOf rest :=
      (List.nodup_cons.mp (by simpa [keysOf] using hnd)).1
    have htail : ∀ k ∈ keysOf rest,
        valueAt ((k', v) :: rest) k = valueAt rest k := by
      intro k hk
      have hne : k ≠ k' := fun h => hk' (h ▸ hk)
      simp [valueAt, dlookup, hne]
    show ((k' :: keysOf rest).map fun k => (k, valueAt ((k', v) :: rest) k)) =
      (k', v) :: rest
    rw [List.map_cons]
    congr 1
    · show (k', valueAt ((k', v) :: rest) k') = (k', v)
      simp [valueAt, dlookup]
    · rw [List.map_congr_left fun k hk => by rw [htail k hk]]
      exact map_keys_valueAt rest hnd'

theorem keySetMatch_of_keys_eq {d e : ParamDict} (h : keysOf d = keysOf e) :
    keySetMatch d e = true := by
  simp [keySetMatch, List.all_eq_true, h]

theorem okUpdates_eq_self {updates : List WorkerUpdate}
    (h : ∀ u ∈ updates, u.status = UpdateStatus.ok) : okUpdates updates = updates :=
  List.filter_eq_self.mpr fun u hu => by simp [h u hu]

theorem weightedAt_eq_some {updates : List WorkerUpdate} {k : String}
    (h : ∀ u ∈ updates, k ∈ keysOf u.params) :
    weightedAt updates k =
      some (weightedSumAt updates k / totalWeight updates) := by
  unfold weightedAt
  rw [mapOpt_eq_some_map _ (fun u => (u.weight : ℚ) * valueAt u.params k) _
    fun u hu => by rw [dlookup_of_mem_keys u.params k (h u hu)]; rfl]
  simp [weightedSumAt, totalWeight]

/-! ### Claim theorems -/

/-- Claim C10: for every job passed to `submit_job`, the returned
`JobResult` has `success = true`, `gas_used = 1000`,
`model_hash = "abc123def456"`, and `reward_earned` equal to the job's
`reward_tokens` — constants independent of the job's code, requirements
and resources, the reward depending only on `reward_tokens`. -/
theorem submit_job_constant_result (pyHash : String → Int) (job : TrainingJob) :
    (submit_job pyHash job).success = true ∧
    (submit_job pyHash job).gas_used = 1000 ∧
    (submit_job pyHash job).model_hash = some "abc123def456" ∧
    (submit_job pyHash job).reward_earned = job.reward_tokens :=
  ⟨rfl, rfl, rfl, rfl⟩

/-- Claim C8: compilation to VM instructions is a pure deterministic
function — two jobs agreeing on the fields the translation reads
(code, resources, requirements) compile to identical instruction lists,
whatever their other fields are. -/
theorem to_vm_instructions_deterministic (j1 j2 : TrainingJob)
    (hcode : j1.code = j2.code) (hres : j1.resources = j2.resources)
    (hreq : j1.requirements = j2.requirements) :
    to_vm_instructions j1 = to_vm_instructions j2 := by
  simp [to_vm_instructions, hcode, hres, hreq]

/-- Witness for the C8 theorem: two concrete jobs differing in name,
data source, reward and config compile identically. -/
theorem to_vm_instructions_deterministic_witness :
    to_vm_instructions
      { name := "a", code := "c", data_source := "d1", requirements := ["torch"]
        resources := [("memory_mb", 1024)], reward_tokens := 5, config := [] } =
    to_vm_instructions
      { name := "b", code := "c", data_source := "d2", requirements := ["torch"]
        resources := [("memory_mb", 1024)], reward_tokens := 9
        config := [("epochs", 3)] } :=
  to_vm_instructions_deterministic _ _ rfl rfl rfl

/-- Claim C7 (refuting theorem): the job id assigned by `submit_job` is a
function of the job's name alone — any two jobs sharing a name receive the
same id under any hash function, so id assignment is not collision-free,
contrary to the claim. -/
theorem job_id_depends_only_on_name (pyHash : String → Int) (j1 j2 : TrainingJob)
    (hname : j1.name = j2.name) :
    (submit_job pyHash j1).job_id = (submit_job pyHash j2).job_id := by
  simp [submit_job, job_id, hname]

/-- Witness for the C7 theorem: two distinct concrete jobs named
`same-name` receive identical job ids. -/
theorem job_id_depends_only_on_name_witness :
    (submit_job (fun s => (s.length : Int))
      { name := "same-name", code := "c1", data_source := "d1"
        requirements := [], resources := [], reward_tokens := 1, config := [] }).job_id =
    (submit_job (fun s => (s.length : Int))
      { name := "same-name", code := "c2", data_source := "d2"
        requirements := ["torch"], resources := [("memory_mb", 64)]
        reward_tokens := 2, config := [] }).job_id :=
  job_id_depends_only_on_name _ _ _ rfl

/-- Claim C6: `Ledger.charge` is idempotent per round — charging the same
`(job_id, round_index)` twice yields the same ledger state as charging it
once. -/
theorem ledger_charge_idempotent (l : Ledger) (job : String) (idx : Nat)
    (consumed : ℚ) :
    (l.charge job idx consumed).charge job idx consumed =
      l.charge job idx consumed := by
  by_cases h : l.isCharged job idx
  · simp [Ledger.charge, h]
  · have h2 : (Ledger.mk ((job, idx, consumed) :: l.entries)).isCharged job idx
        = true := by
      simp [Ledger.isCharged]
    simp [Ledger.charge, h, h2]

/-- Claim C2: when fewer than `min_workers` updates have status `ok`,
aggregation fails with `AggregationError` (quorum not met) and never
produces an aggregated state. -/
theorem aggregate_quorum_failure (min_workers : Nat)
    (updates : List WorkerUpdate) (current : ParamDict)
    (h : (okUpdates updates).length < min_workers) :
    aggregate min_workers updates current =
      Except.error AggregationError.quorum_not_met := by
  simp [aggregate, h]

/-- Witness for the C2 theorem: with `min_workers = 2` and a single `ok`
update beside a timeout, aggregation fails with the quorum error. -/
theorem aggregate_quorum_failure_witness :
    aggregate 2
      [{ worker_id := "w1", params := [("a", 2)], weight := 1
         status := UpdateStatus.ok },
       { worker_id := "w3", params := [("a", 9)], weight := 1
         status := UpdateStatus.timeout }]
      [("a", 0)] = Except.error AggregationError.quorum_not_met :=
  aggregate_quorum_failure 2 _ _ (by simp [okUpdates])

/-- Claim C5: the settled reward is never negative; the resource penalty
is zero when consumption is within the declared envelope; and whenever
the formula value `base_reward * completion_fraction - resource_penalty`
is non-negative, the settled reward equals it exactly. -/
theorem settle_reward_formula (base : ℚ) (completed configured : Nat)
    (rate consumed envelope : ℚ) :
    0 ≤ settle base completed configured rate consumed envelope ∧
    (consumed ≤ envelope → resource_penalty rate consumed envelope = 0) ∧
    (0 ≤ base * completion_fraction completed configured -
        resource_penalty rate consumed envelope →
      settle base completed configured rate consumed envelope =
        base * completion_fraction completed configured -
          resource_penalty rate consumed envelope) := by
  refine ⟨?_, ?_, ?_⟩
  · unfold settle
    dsimp only
    split
    · exact le_refl 0
    · next h => exact not_lt.mp h
  · intro h
    simp [resource_penalty, h]
  · intro h
    unfold settle
    simp [not_lt.mpr h]

/-- Witness for the C5 theorem: a base reward of 100 over 3 of 4
completed rounds, within the envelope, settles to exactly 75. -/
theorem settle_reward_formula_witness : settle 100 3 4 1 5 10 = 75 := by
  have h := (settle_reward_formula 100 3 4 1 5 10).2.2
    (by norm_num [completion_fraction, resource_penalty])
  rw [h]
  norm_num [completion_fraction, resource_penalty]

/-- Sum of a constant function over a list. -/
theorem sum_map_const {α : Type} (c : ℚ) :
    ∀ l : List α, (l.map fun _ => c).sum = l.length * c
  | [] => by simp
  | a :: as => by
    simp [sum_map_const c as]
    ring

/-- Unfolding of `federated_averaging` on a non-empty client list. -/
theorem federated_averaging_cons (c0 : ParamDict) (cs : List ParamDict) :
    federated_averaging (c0 :: cs) =
      mapOpt (fun param_name =>
        match mapOpt (fun c => dlookup c param_name) (c0 :: cs) with
        | some vals => some (param_name, vals.sum / (((c0 :: cs).length : Nat) : ℚ))
        | none => none)
        (keysOf c0) := rfl

/-- With all updates `ok`, matching key lists and quorum met, `aggregate`
succeeds and returns the per-key weighted means. -/
theorem aggregate_ok_eq (min_workers : Nat) (updates : List WorkerUpdate)
    (current : ParamDict)
    (hok : ∀ u ∈ updates, u.status = UpdateStatus.ok)
    (hkeys : ∀ u ∈ updates, keysOf u.params = keysOf current)
    (hq : min_workers ≤ updates.length) :
    aggregate min_workers updates current =
      Except.ok ((keysOf current).map fun k =>
        (k, weightedSumAt updates k / totalWeight updates)) := by
  have hoks := okUpdates_eq_self hok
  have hlt : ¬ (updates.length < min_workers) := not_lt.mpr hq
  have hall : updates.all (fun u => keySetMatch u.params current) = true := by
    rw [List.all_eq_true]
    exact fun u hu => keySetMatch_of_keys_eq (hkeys u hu)
  have hmap : mapOpt (fun k => (weightedAt updates k).map fun v => (k, v))
      (keysOf current) =
      some ((keysOf current).map fun k =>
        (k, weightedSumAt updates k / totalWeight updates)) := by
    apply mapOpt_eq_some_map
    intro k hk
    rw [weightedAt_eq_some fun u hu => by rw [hkeys u hu]; exact hk]
    rfl
  simp only [aggregate, hoks, hlt, if_false, hall, if_true, hmap]

/-- Claim C4: aggregating a single `ok` update yields that update's
parameter values unchanged — both for the source's `federated_averaging`
on the singleton client list and for the weighted `aggregate` (the
update's values scaled by weight 1 after normalisation). -/
theorem singleton_identity (min_workers : Nat) (u : WorkerUpdate)
    (hnd : (keysOf u.params).Nodup) (hok : u.status = UpdateStatus.ok)
    (hw : 0 < u.weight) (hq : min_workers ≤ 1) :
    federated_averaging [u.params] = some u.params ∧
    aggregate min_workers [u] u.params = Except.ok u.params := by
  have hwq : ((u.weight : ℚ)) ≠ 0 :=
    Nat.cast_ne_zero.mpr (Nat.pos_iff_ne_zero.mp hw)
  constructor
  · rw [federated_averaging_cons]
    have key : ∀ k ∈ keysOf u.params,
        (fun param_name =>
          match mapOpt (fun c => dlookup c param_name) [u.params] with
          | some vals => some (param_name,
              vals.sum / ((([u.params] : List ParamDict).length : Nat) : ℚ))
          | none => none) k = some (k, valueAt u.params k) := by
      intro k hk
      simp [mapOpt, dlookup_of_mem_keys u.params k hk]
    rw [mapOpt_eq_some_map _ (fun k => (k, valueAt u.params k)) (keysOf u.params) key]
    rw [map_keys_valueAt u.params hnd]
  · have hagg := aggregate_ok_eq min_workers [u] u.params
      (fun x hx => by rcases List.mem_singleton.mp hx with rfl; exact hok)
      (fun x hx => by rcases List.mem_singleton.mp hx with rfl; rfl)
      (by simpa using hq)
    rw [hagg]
    have hval : ∀ k ∈ keysOf u.params,
        weightedSumAt [u] k / totalWeight [u] = valueAt u.params k := by
      intro k hk
      simp [weightedSumAt, totalWeight]
      exact mul_div_cancel_left₀ _ hwq
    rw [List.map_congr_left fun k hk =>
      congrArg (fun v => (k, v)) (hval k hk)]
    rw [map_keys_valueAt u.params hnd]

/-- Witness for the C4 theorem: one concrete `ok` update with weight 3
aggregates to exactly its own parameter values. -/
theorem singleton_identity_witness :
    federated_averaging [[("a", (2 : ℚ)), ("b", 5)]] = some [("a", 2), ("b", 5)] ∧
    aggregate 1
      [{ worker_id := "w1", params := [("a", 2), ("b", 5)], weight := 3
         status := UpdateStatus.ok }]
      [("a", 2), ("b", 5)] = Except.ok [("a", 2), ("b", 5)] :=
  singleton_identity 1
    { worker_id := "w1", params := [("a", 2), ("b", 5)], weight := 3
      status := UpdateStatus.ok }
    (by decide) rfl (by decide) (by decide)

/-- Claim C1: for a round in which all dispatched workers return `ok`, the
aggregated value of each parameter is the sample-count-weighted mean
`Σ(weight_i * update_i[k]) / Σ(weight_i)`; and when all weights are equal
the aggregated state agrees pointwise with the source's
`federated_averaging` — the arithmetic mean of the workers' values. -/
theorem aggregate_weighted_mean (min_workers : Nat)
    (updates : List WorkerUpdate) (current : ParamDict)
    (hne : updates ≠ [])
    (hok : ∀ u ∈ updates, u.status = UpdateStatus.ok)
    (hkeys : ∀ u ∈ updates, keysOf u.params = keysOf current)
    (hnd : (keysOf current).Nodup)
    (hq : min_workers ≤ updates.length)
    (hw : ∀ u ∈ updates, 0 < u.weight) :
    ∃ d, aggregate min_workers updates current = Except.ok d ∧
      (∀ k ∈ keysOf current,
        dlookup d k = some (weightedSumAt updates k / totalWeight updates)) ∧
      ∀ w : Nat, (∀ u ∈ updates, u.weight = w) →
        ∃ avg, federated_averaging (updates.map fun u => u.params) = some avg ∧
          ∀ k ∈ keysOf current, dlookup avg k = dlookup d k := by
  refine ⟨(keysOf current).map fun k =>
    (k, weightedSumAt updates k / totalWeight updates),
    aggregate_ok_eq min_workers updates current hok hkeys hq, ?_, ?_⟩
  · intro k hk
    exact dlookup_map_keys _ (keysOf current) k hnd hk
  · intro w hweq
    obtain ⟨u0, rest, rfl⟩ : ∃ u0 rest, updates = u0 :: rest := by
      cases updates with
      | nil => exact absurd rfl hne
      | cons a l => exact ⟨a, l, rfl⟩
    have hwpos : 0 < w := by
      have := hw u0 (List.mem_cons_self u0 rest)
      rwa [hweq u0 (List.mem_cons_self u0 rest)] at this
    have hwq : ((w : ℚ)) ≠ 0 := Nat.cast_ne_zero.mpr (Nat.pos_iff_ne_zero.mp hwpos)
    have hkeys0 : keysOf u0.params = keysOf current :=
      hkeys u0 (List.mem_cons_self u0 rest)
    set S : String → ℚ :=
      fun k => ((u0 :: rest).map fun u => valueAt u.params k).sum with hS
    set n : ℚ := (((u0 :: rest) : List WorkerUpdate).length : ℚ) with hn
    have hmapcons : ((u0 :: rest).map fun u => u.params) =
        u0.params :: (rest.map fun u => u.params) := List.map_cons _ _ _
    have hFk : ∀ k ∈ keysOf u0.params,
        (fun param_name =>
          match mapOpt (fun c => dlookup c param_name)
              (u0.params :: rest.map fun u => u.params) with
          | some vals => some (param_name, vals.sum /
              (((u0.params :: rest.map fun u => u.params) : List ParamDict).length : ℚ))
          | none => none) k = some (k, S k / n) := by
      intro k hk
      rw [hkeys0] at hk
      have hinner : mapOpt (fun c => dlookup c k)
          (u0.params :: rest.map fun u => u.params) =
          some ((u0.params :: rest.map fun u => u.params).map
            fun c => valueAt c k) := by
        apply mapOpt_eq_some_map
        intro c hc
        rw [← hmapcons] at hc
        obtain ⟨v, hv, rfl⟩ := List.mem_map.mp hc
        exact dlookup_of_mem_keys v.params k (by rw [hkeys v hv]; exact hk)
      dsimp only
      rw [hinner]
      have hlist : ((u0.params :: rest.map fun u => u.params).map
          fun c => valueAt c k) =
          ((u0 :: rest).map fun u => valueAt u.params k) := by
        rw [← hmapcons, List.map_map]
        rfl
      have hlen : ((u0.params :: rest.map fun u => u.params) : List ParamDict).length =
          (u0 :: rest).length := by
        rw [← hmapcons, List.length_map]
      rw [hlist, hlen]
    have havg := mapOpt_eq_some_map _ (fun k => (k, S k / n))
      (keysOf u0.params) hFk
    refine ⟨(keysOf u0.params).map fun k => (k, S k / n), ?_, ?_⟩
    · rw [hmapcons, federated_averaging_cons]
      exact havg
    · intro k hk
      rw [hkeys0]
      rw [dlookup_map_keys _ (keysOf current) k hnd hk,
          dlookup_map_keys _ (keysOf current) k hnd hk]
      congr 1
      have h1 : weightedSumAt (u0 :: rest) k = (w : ℚ) * S k := by
        unfold weightedSumAt
        rw [List.map_congr_left fun u hu => by rw [hweq u hu]]
        exact List.sum_map_mul_left _ _ _
      have h2 : totalWeight (u0 :: rest) = n * w := by
        unfold totalWeight
        rw [List.map_congr_left fun u hu => by rw [hweq u hu]]
        exact sum_map_const (w : ℚ) (u0 :: rest)
      rw [h1, h2, mul_comm n (w : ℚ), mul_div_mul_left _ _ hwq]

/-- The two `ok` updates of the spec's concrete round-0 scenario
(`w1 : a = 2` and `w2 : a = 4`, both weight 1). -/
def roundZeroUpdates : List WorkerUpdate :=
  [{ worker_id := "w1", params := [("a", 2)], weight := 1
     status := UpdateStatus.ok },
   { worker_id := "w2", params := [("a", 4)], weight := 1
     status := UpdateStatus.ok }]

/-- Witness for the C1 theorem: the spec's concrete scenario of two
equal-weight `ok` updates for the key `a`. -/
theorem aggregate_weighted_mean_witness :
    ∃ d, aggregate 2 roundZeroUpdates [("a", 0)] = Except.ok d ∧
      (∀ k ∈ keysOf [("a", 0)],
        dlookup d k = some (weightedSumAt roundZeroUpdates k /
          totalWeight roundZeroUpdates)) ∧
      ∀ w : Nat, (∀ u ∈ roundZeroUpdates, u.weight = w) →
        ∃ avg, federated_averaging (roundZeroUpdates.map fun u => u.params) =
            some avg ∧
          ∀ k ∈ keysOf [("a", 0)], dlookup avg k = dlookup d k :=
  aggregate_weighted_mean 2 roundZeroUpdates [("a", 0)] (by decide) (by decide)
    (by decide) (by decide) (by decide) (by decide)

/-- Claim C3: a job whose requirements contain an import missing from the
allow-list fails in the `Compiling` state — the scheduler issues no
sandbox calls and terminates with `success = false` and reason
`compile_error`. -/
theorem compile_error_no_sandbox (cfg : CompilerConfig)
    (sandbox : Nat → String → ParamDict → WorkerUpdate)
    (workers : List String) (min_workers rounds : Nat) (job : TrainingJob)
    (init : ParamDict)
    (h : ∃ r ∈ job.requirements, r ∉ cfg.allow_list) :
    (runJob cfg sandbox workers min_workers rounds job init).1 = [] ∧
    (runJob cfg sandbox workers min_workers rounds job init).2.success = false ∧
    (runJob cfg sandbox workers min_workers rounds job init).2.failure_reason =
      some "compile_error" := by
  obtain ⟨r, hr, hnot⟩ := h
  have hfind : job.requirements.find? (fun r => decide (r ∉ cfg.allow_list)) ≠ none := by
    rw [Ne, List.find?_eq_none]
    push_neg
    exact ⟨r, hr, by simpa using hnot⟩
  obtain ⟨imp, hfind'⟩ := Option.ne_none_iff_exists'.mp hfind
  simp only [decide_not] at hfind'
  simp [runJob, compile, hfind']

/-- Witness for the C3 theorem: a concrete job requiring the import
`evil`, absent from the allow-list, terminates with `compile_error` and
an empty sandbox-call trace. -/
theorem compile_error_no_sandbox_witness :
    (runJob { allow_list := ["torch"], memory_ceiling_mb := 4096, max_source_bytes := 10000 }
        (fun _ _ _ => { worker_id := "w", params := [], weight := 1
                        status := UpdateStatus.ok })
        ["w1"] 1 1
        { name := "j", code := "code", data_source := "ds"
          requirements := ["evil"], resources := [("memory_mb", 1024)]
          reward_tokens := 10, config := [] }
        []).1 = [] ∧
    (runJob { allow_list := ["torch"], memory_ceiling_mb := 4096, max_source_bytes := 10000 }
        (fun _ _ _ => { worker_id := "w", params := [], weight := 1
                        status := UpdateStatus.ok })
        ["w1"] 1 1
        { name := "j", code := "code", data_source := "ds"
          requirements := ["evil"], resources := [("memory_mb", 1024)]
          reward_tokens := 10, config := [] }
        []).2.success = false ∧
    (runJob { allow_list := ["torch"], memory_ceiling_mb := 4096, max_source_bytes := 10000 }
        (fun _ _ _ => { worker_id := "w", params := [], weight := 1
                        status := UpdateStatus.ok })
        ["w1"] 1 1
        { name := "j", code := "code", data_source := "ds"
          requirements := ["evil"], resources := [("memory_mb", 1024)]
          reward_tokens := 10, config := [] }
        []).2.failure_reason = some "compile_error" :=
  compile_error_no_sandbox _ _ _ _ _ _ _ (by decide)

/-- Every sandbox call issued by the round loop carries the compiled
constraints record unchanged. -/
theorem runRounds_constraints (instrs : List VmInstruction)
    (constraints : ResourceConstraints)
    (sandbox : Nat → String → ParamDict → WorkerUpdate)
    (workers : List String) (min_workers : Nat) :
    ∀ (fuel idx : Nat) (state : ParamDict) (call : SandboxCall),
      call ∈ (runRounds instrs constraints sandbox workers min_workers fuel idx state).1 →
      call.constraints = constraints
  | 0, idx, state, call, h => by simp [runRounds] at h
  | fuel + 1, idx, state, call, h => by
    simp only [runRounds] at h
    rcases hagg : aggregate min_workers (workers.map fun w => sandbox idx w state)
        state with e | next
    · rw [hagg] at h
      dsimp at h
      obtain ⟨w, hw, rfl⟩ := List.mem_map.mp h
      rfl
    · rw [hagg] at h
      dsimp at h
      rcases List.mem_append.mp h with h1 | h1
      · obtain ⟨w, hw, rfl⟩ := List.mem_map.mp h1
        rfl
      · exact runRounds_constraints instrs constraints sandbox workers
          min_workers fuel (idx + 1) next call h1

/-- Claim C9: the `ResourceConstraints` record produced by compilation is
exactly the record derived from the job's declared resources and
requirements (max memory from `resources`, the wall-clock limit, the
allow-list from `requirements`), and every sandbox call issued for the
job carries that same record unchanged. -/
theorem compiled_constraints_threaded (cfg : CompilerConfig)
    (sandbox : Nat → String → ParamDict → WorkerUpdate)
    (workers : List String) (min_workers rounds : Nat) (job : TrainingJob)
    (init : ParamDict) (instrs : List VmInstruction)
    (constraints : ResourceConstraints)
    (hc : compile cfg job = Except.ok (instrs, constraints)) :
    constraints =
      { max_memory_mb := natGet job.resources "memory_mb" 2048
        max_execution_time_ms := 300000
        allowed_imports := job.requirements } ∧
    ∀ call ∈ (runJob cfg sandbox workers min_workers rounds job init).1,
      call.constraints = constraints := by
  constructor
  · unfold compile at hc
    split at hc
    · exact absurd hc (by simp)
    · split at hc
      · exact absurd hc (by simp)
      · split at hc
        · exact absurd hc (by simp)
        · simp only [Except.ok.injEq, Prod.mk.injEq] at hc
          exact hc.2.symm
  · intro call hcall
    simp only [runJob, hc] at hcall
    exact runRounds_constraints instrs constraints sandbox workers min_workers
      rounds 0 init call hcall

/-- Witness for the C9 theorem: a concrete one-round job whose compiled
constraints record (memory 1024 MB, 300000 ms, imports `torch`) is carried
by every sandbox call of the run. -/
theorem compiled_constraints_threaded_witness :
    ({ max_memory_mb := 1024, max_execution_time_ms := 300000
       allowed_imports := ["torch"] } : ResourceConstraints) =
      { max_memory_mb := natGet [("memory_mb", 1024)] "memory_mb" 2048
        max_execution_time_ms := 300000
        allowed_imports := ["torch"] } ∧
    ∀ call ∈ (runJob
        { allow_list := ["torch"], memory_ceiling_mb := 4096, max_source_bytes := 10000 }
        (fun _ _ _ => { worker_id := "w", params := [("a", 1)], weight := 1
                        status := UpdateStatus.ok })
        ["w1"] 1 1
        { name := "j", code := "code", data_source := "ds"
          requirements := ["torch"], resources := [("memory_mb", 1024)]
          reward_tokens := 10, config := [] }
        [("a", 0)]).1,
      call.constraints =
        { max_memory_mb := 1024, max_execution_time_ms := 300000
          allowed_imports := ["torch"] } :=
  compiled_constraints_threaded _ _ _ _ _
    { name := "j", code := "code", data_source := "ds"
      requirements := ["torch"], resources := [("memory_mb", 1024)]
      reward_tokens := 10, config := [] }
    _
    (to_vm_instructions
      { name := "j", code := "code", data_source := "ds"
        requirements := ["torch"], resources := [("memory_mb", 1024)]
        reward_tokens := 10, config := [] })
    _
    (by simp [compile, natGet, to_vm_instructions]; decide)
